import Mathlib

/-!
Verification of the VideoConverter batch pipeline (`src/vconverter.py`).

A shallow embedding of the converter's core: paths are modelled as raw
POSIX path strings, the filesystem as an association list from path
strings to byte sizes, and the external encoder (moviepy) as an abstract
oracle.  Stateful operations (`os.rename`, the conversion worker) are
explicit state-passing functions returning `Except`, with the error
constructors naming the Python exceptions that can escape.

Modelling conventions, stated once:
* A relative path string resolves against the process working directory,
  exactly as Python's `os.path` / `pathlib` do; the association list's
  keys are the strings Python would hand to the OS, so `"a.mp4"` and
  `"videos/a.mp4"` are distinct files.
* Name normalisation in `pathlib` (collapsing `//`, trailing `/`, `./`)
  is not modelled; all concrete paths used below are already in normal
  form, where the raw string and the normalised path agree.
* Directory existence checks and `round` on binary floats are idealised:
  sizes are exact naturals and rounding is exact half-to-even over ℚ
  (CPython's documented rounding mode).
-/

namespace VConverter

/-- Fixed tuple `VIDEO` of supported, dot-prefixed, case-sensitive video
extensions (`vconverter.py` lines 19–22). -/
def VIDEO : List String :=
  [".mp4", ".m4v", ".mkv", ".flv",
   ".webm", ".avi", ".wmv", ".mpg", ".mov"]

/-- Destination folder `DEST_FOLDER = Path('result/')` (normalised). -/
def DEST_FOLDER : String := "result"

/-- Archive folder `CONVERTED_VIDEOS_FOLDER = Path('processed/')`
(normalised): originals of successfully converted videos are moved
here. -/
def CONVERTED_VIDEOS_FOLDER : String := "processed"

/-- Reversed final component (filename) of a POSIX path string:
characters after the last `/`, in reverse order.  Helper for
`suffix` and `change_suffix_to_mp4`. -/
def revName (p : String) : List Char :=
  p.toList.reverse.takeWhile (fun c => c ≠ '/')

/-- Embeds `pathlib.PurePath.suffix` (CPython 3.8): the last dot-portion
of the final component, provided the dot is neither the first nor the
last character of that component; `""` otherwise. -/
def suffix (p : String) : String :=
  let n := revName p
  let pre := n.takeWhile (fun c => c ≠ '.')
  if pre.length < n.length ∧ 0 < pre.length ∧ pre.length + 1 < n.length then
    String.mk ('.' :: pre.reverse)
  else ""

/-- Embeds `is_video(path)` (`vconverter.py` lines 36–41): the file's
conversion is supported iff its suffix is a member of `VIDEO`. -/
def is_video (path : String) : Bool :=
  VIDEO.contains (suffix path)

/-- Embeds the `/` join of `pathlib`: an absolute right operand (leading
`/`) discards the left side; otherwise the components are joined with a
separator. -/
def pathJoin (d : String) (n : String) : String :=
  if n.toList.head? = some '/' then n
  else if d = "" then n
  else d ++ "/" ++ n

/-- Embeds `change_suffix_to_mp4(path) = Path(path).with_suffix('.mp4')`
(`vconverter.py` lines 131–136): drop the existing suffix of the final
component (if any) and append `.mp4`.  CPython's `with_suffix` raises
`ValueError` when the path has an empty name; every call site below
passes a path with a non-empty name, so that branch is not modelled. -/
def change_suffix_to_mp4 (path : String) : String :=
  let cs := path.toList
  let n := revName path
  let dir := (cs.reverse.drop n.length).reverse
  let keep := n.reverse.take (n.length - (suffix path).length)
  String.mk (dir ++ keep ++ ".mp4".toList)

/-! ## Filesystem model -/

/-- Filesystem visible to the process: an association list from path
strings (as Python would hand them to the OS, relative ones resolving
against the working directory) to file byte sizes. -/
abbrev Fs := List (String × Nat)

/-- Embeds `path.exists()` / `os.path.exists`. -/
def pathExists (fs : Fs) (p : String) : Bool :=
  (fs.lookup p).isSome

/-- Embeds `os.path.getsize`, in bytes; junk value 0 for a missing path
(every call site guards with `pathExists`). -/
def getsize (fs : Fs) (p : String) : Nat :=
  (fs.lookup p).getD 0

/-- Create or overwrite the file at `p` with byte size `sz`. -/
def setEntry (fs : Fs) (p : String) (sz : Nat) : Fs :=
  (p, sz) :: fs.eraseP (fun e => e.1 == p)

/-- Delete the entry at `p`, if present. -/
def removeEntry (fs : Fs) (p : String) : Fs :=
  fs.eraseP (fun e => e.1 == p)

/-! ## Classifier: `get_size`, `is_item_valid` -/

/-- CPython's `round` applied to an exact rational: round half to even
(banker's rounding) to the nearest integer. -/
def halfEvenRound (x : ℚ) : ℤ :=
  let f := Rat.floor x
  let r := x - (f : ℚ)
  if r < 1/2 then f
  else if 1/2 < r then f + 1
  else if f % 2 = 0 then f else f + 1

/-- Embeds `round(x, d)`: round to `d` decimal places, half to even,
idealised over exact rationals. -/
def pyRound (x : ℚ) (d : Nat) : ℚ :=
  (halfEvenRound (x * 10 ^ d) : ℚ) / 10 ^ d

/-- Embeds `get_size(path, decimal_places)` (`vconverter.py` lines
64–77): `-1` when the path does not exist, otherwise the byte size
divided by `1024**2`, rounded to `decimal_places` places. -/
def get_size (fs : Fs) (path : String) (decimal_places : Nat) : ℚ :=
  if pathExists fs path then
    pyRound ((getsize fs path : ℚ) / 1024 ^ 2) decimal_places
  else -1

/-- Embeds `is_item_valid(path, max_size)` (`vconverter.py` lines
179–189): supported video and `get_size(path) <= max_size` (with
`get_size`'s default `decimal_places = 1`). -/
def is_item_valid (fs : Fs) (path : String) (max_size : ℤ) : Bool :=
  is_video path && decide (get_size fs path 1 ≤ (max_size : ℚ))

/-- Claim-side phrasing of the size computation, for comparison with
`get_size`: byte size divided by 1048576, rounded (half to even) to one
decimal place. -/
def claimSizeMB (bytes : Nat) : ℚ :=
  (halfEvenRound ((bytes : ℚ) * 10 / 1048576) : ℚ) / 10

/-! ## Conversion -/

/-- Exceptions `convert` can raise, in the order its body checks for
them, plus propagation of an encoder failure. -/
inductive ConvErr
  | fileNotFound
  | fileEvenExists
  | wrongExtension
  | encoderFailure
deriving DecidableEq

/-- External encoder (moviepy's `VideoFileClip` open plus
`write_videofile`), abstracted as an oracle: given source and
destination paths it either fails (`none`, an exception the caller
re-raises) or succeeds and reports the byte size of the output file it
wrote at the destination. -/
def Enc := String → String → Option Nat

/-- Embeds `convert(from_, to_, force=force)` (`vconverter.py` lines
80–128): check the three preconditions in order, then run the encoder;
on encoder success the destination file exists with the encoder's output
size. -/
def convert (enc : Enc) (fs : Fs) (from_ to_ : String) (force : Bool) :
    Except ConvErr Fs :=
  if pathExists fs from_ = false then .error .fileNotFound
  else if pathExists fs to_ = true ∧ force = false then .error .fileEvenExists
  else if ¬(is_video from_ = true ∧ is_video to_ = true) then .error .wrongExtension
  else
    match enc from_ to_ with
    | none => .error .encoderFailure
    | some sz => .ok (setEntry fs to_ sz)

/-- Stub encoder for concrete instantiations: always succeeds with a
512-byte output. -/
def encOk : Enc := fun _ _ => some 512

/-- Stub encoder for concrete instantiations: always raises. -/
def encFail : Enc := fun _ _ => none

/-! ## The conversion worker: `convert_file_to_mp4` -/

/-- Exceptions that can escape `convert_file_to_mp4` itself (its
`try`/`except` swallows everything `convert` raises, but the two
`os.rename` calls sit outside the `try` body). -/
inductive PyErr
  | typeError      -- `os.rename(from_, None)` when no destination was given
  | renameNotFound -- `os.rename` with a missing source file
deriving DecidableEq

/-- Embeds `os.rename(src, dst)` on POSIX: fails when the source is
missing, silently replaces an existing destination otherwise. -/
def osRename (fs : Fs) (src dst : String) : Except PyErr Fs :=
  if pathExists fs src then
    .ok (setEntry (removeEntry fs src) dst (getsize fs src))
  else .error .renameNotFound

/-- Embeds `convert_file_to_mp4(from_, to_)` (`vconverter.py` lines
139–176): an `.mp4` source is renamed straight to the destination; a
non-`.mp4` destination is logged and the call returns; otherwise
`convert` runs (with the destination defaulted via
`change_suffix_to_mp4`), its exceptions are caught and logged, and on
success the source is archived into `CONVERTED_VIDEOS_FOLDER`. -/
def convert_file_to_mp4 (enc : Enc) (fs : Fs) (from_ : String)
    (to_ : Option String) : Except PyErr Fs :=
  if suffix from_ = ".mp4" then
    match to_ with
    | none => .error .typeError
    | some t => osRename fs from_ t
  else if (match to_ with
           | some t => decide (suffix t ≠ ".mp4")
           | none => false) then
    .ok fs
  else
    let t := match to_ with
             | some t => t
             | none => change_suffix_to_mp4 from_
    match convert enc fs from_ t false with
    | .error _ => .ok fs
    | .ok fs2 => osRename fs2 from_ (pathJoin CONVERTED_VIDEOS_FOLDER from_)

/-! ## Scanner and job selector -/

/-- Embeds `validate_videos(base_path, max_size)` (`vconverter.py` lines
192–210), with the result of `os.listdir(base_path)` — the bare names of
the immediate children of `base_path`, in directory-listing order —
passed in as `listing`.  Entries whose name has an empty suffix are
skipped; each remaining name is paired with `is_item_valid` applied to
the bare name itself (`Path(item)`, which resolves against the working
directory, not against `base_path`). -/
def validate_videos (fs : Fs) (listing : List String) (max_size : ℤ) :
    List (String × Bool) :=
  listing.filterMap (fun nm =>
    if suffix nm ≠ "" then some (nm, is_item_valid fs nm max_size) else none)

/-- Loop body of `files` (`vconverter.py` lines 213–238), with the
`processed` counter explicit: stop once `count` valid files have been
emitted (unless `count = -1`), and pair each valid source with
`dest_path / change_suffix_to_mp4(source)`. -/
def filesAux (dest : String) (count : ℤ) :
    List (String × Bool) → ℤ → List (String × String)
  | [], _ => []
  | (from_, is_ok) :: rest, processed =>
    if count ≠ -1 ∧ count ≤ processed then []
    else if is_ok then
      (from_, pathJoin dest (change_suffix_to_mp4 from_)) ::
        filesAux dest count rest (processed + 1)
    else filesAux dest count rest processed

/-- Embeds `files(base_path, dest_path, count, max_size)`
(`vconverter.py` lines 213–238): jobs for the valid scanned entries,
bounded by `count`. -/
def files (fs : Fs) (listing : List String) (dest : String)
    (count max_size : ℤ) : List (String × String) :=
  filesAux dest count (validate_videos fs listing max_size) 0

/-! ## Helper lemmas -/

/-- Bridge between the executable `Rat.floor` and Mathlib's `⌊·⌋`. -/
theorem rat_floor_eq_int_floor (q : ℚ) : Rat.floor q = ⌊q⌋ := by
  rw [Rat.floor_def', Rat.floor_def]

/-- Half-to-even rounding fixes integers. -/
theorem halfEvenRound_intCast (n : ℤ) : halfEvenRound (n : ℚ) = n := by
  simp only [halfEvenRound, rat_floor_eq_int_floor, Int.floor_intCast]
  norm_num

/-- Erasing the entry of one key does not change lookups of another. -/
theorem lookup_eraseP_ne (fs : Fs) (p q : String) (h : p ≠ q) :
    (fs.eraseP (fun e => e.1 == q)).lookup p = fs.lookup p := by
  induction fs with
  | nil => rfl
  | cons kv rest ih =>
    obtain ⟨k, v⟩ := kv
    have hbeq : ∀ x y : String, x ≠ y → (x == y) = false := by
      intro x y hxy; simp [hxy]
    by_cases hk : k = q
    · subst hk
      simp [List.eraseP_cons, List.lookup_cons, hbeq p k h]
    · simp [List.eraseP_cons, hbeq k q hk, List.lookup_cons, ih]

/-- Writing one path does not change lookups of another. -/
theorem lookup_setEntry_ne (fs : Fs) (q : String) (sz : Nat) (p : String) (h : p ≠ q) :
    (setEntry fs q sz).lookup p = fs.lookup p := by
  have hbeq : (p == q) = false := by simp [h]
  simp [setEntry, List.lookup_cons, hbeq, lookup_eraseP_ne fs p q h]

/-- Inversion of a successful `convert`: the source existed, the encoder
succeeded, and the result state is the input state plus the encoder's
output file. -/
theorem convert_ok_inversion (enc : Enc) (fs : Fs) (from_ to_ : String) (force : Bool)
    (fs2 : Fs) (h : convert enc fs from_ to_ force = .ok fs2) :
    pathExists fs from_ = true ∧ ∃ sz, enc from_ to_ = some sz ∧ fs2 = setEntry fs to_ sz := by
  unfold convert at h
  split_ifs at h with g1 g2 g3
  cases henc : enc from_ to_ with
  | none => rw [henc] at h; exact absurd h (by simp)
  | some sz =>
    rw [henc] at h
    refine ⟨?_, sz, rfl, ?_⟩
    · cases hpe : pathExists fs from_ with
      | false => exact absurd hpe g1
      | true => rfl
    · simpa using h.symm

/-- Unfolding of `filesAux` for a non-negative bound: it emits the valid
entries in order, as jobs, truncated to the remaining budget. -/
theorem filesAux_count_nonneg (dest : String) (m : ℤ) (hm : 0 ≤ m) :
    ∀ (l : List (String × Bool)) (p : ℤ), 0 ≤ p →
      filesAux dest m l p =
        ((l.filter (fun e => e.2)).take (m - p).toNat).map
          (fun e => (e.1, pathJoin dest (change_suffix_to_mp4 e.1))) := by
  intro l
  induction l with
  | nil => intro p _; simp [filesAux]
  | cons hd rest ih =>
    intro p hp
    obtain ⟨f, ok⟩ := hd
    have hm1 : m ≠ -1 := by omega
    by_cases hstop : m ≤ p
    · have hz : (m - p).toNat = 0 := by omega
      simp [filesAux, hm1, hstop, hz]
    · have hk : (m - p).toNat = (m - (p + 1)).toNat + 1 := by omega
      cases ok with
      | false => simp [filesAux, hstop, ih p hp]
      | true => simp [filesAux, hstop, hk, ih (p + 1) (by omega)]

/-- Unfolding of `filesAux` for the sentinel bound `-1`: every valid
entry becomes a job. -/
theorem filesAux_count_neg_one (dest : String) :
    ∀ (l : List (String × Bool)) (p : ℤ),
      filesAux dest (-1) l p =
        (l.filter (fun e => e.2)).map
          (fun e => (e.1, pathJoin dest (change_suffix_to_mp4 e.1))) := by
  intro l
  induction l with
  | nil => intro p; simp [filesAux]
  | cons hd rest ih =>
    intro p
    obtain ⟨f, ok⟩ := hd
    cases ok with
    | false => simp [filesAux, ih]
    | true => simp [filesAux, ih]

/-! ## Claim theorems -/

/-- C1: for a job whose source lacks the `.mp4` extension and whose given
destination has it (sources are bare relative names, hence `h3`),
`convert_file_to_mp4` relocates the source into
`CONVERTED_VIDEOS_FOLDER`, preserving its filename, exactly when the
inner `convert` call succeeds; when `convert` raises any exception the
state is unchanged and no exception propagates (the result is `.ok`). -/
theorem convert_success_iff_archived (enc : Enc) (fs : Fs) (from_ t : String)
    (h1 : suffix from_ ≠ ".mp4") (h2 : suffix t = ".mp4")
    (h3 : from_.toList.head? ≠ some '/') :
    (∀ fs2, convert enc fs from_ t false = .ok fs2 →
       convert_file_to_mp4 enc fs from_ (some t) =
         .ok (setEntry (removeEntry fs2 from_)
              (pathJoin CONVERTED_VIDEOS_FOLDER from_) (getsize fs2 from_))
       ∧ pathJoin CONVERTED_VIDEOS_FOLDER from_ = "processed/" ++ from_)
    ∧ (∀ e, convert enc fs from_ t false = .error e →
        convert_file_to_mp4 enc fs from_ (some t) = .ok fs) := by
  have hjoin : pathJoin CONVERTED_VIDEOS_FOLDER from_ = "processed/" ++ from_ := by
    simp only [pathJoin, CONVERTED_VIDEOS_FOLDER]
    rw [if_neg h3, if_neg (by decide : ¬(("processed" : String) = ""))]
    rfl
  have hbody : ∀ r, convert enc fs from_ t false = r →
      convert_file_to_mp4 enc fs from_ (some t) =
        (match r with
         | .error _ => .ok fs
         | .ok fs2 => osRename fs2 from_ (pathJoin CONVERTED_VIDEOS_FOLDER from_)) := by
    intro r hr
    simp [convert_file_to_mp4, h1, h2, hr]
  constructor
  · intro fs2 hok
    obtain ⟨hex, sz, henc, hfs2⟩ := convert_ok_inversion enc fs from_ t false fs2 hok
    have hnet : from_ ≠ t := fun he => h1 (he ▸ h2)
    have hex2 : pathExists fs2 from_ = true := by
      rw [hfs2]
      simpa [pathExists, lookup_setEntry_ne fs t sz from_ hnet] using hex
    rw [hbody _ hok]
    simp [osRename, hex2, hjoin]
  · intro e herr
    exact hbody _ herr

/-- Witness for C1 at a concrete job: `b.avi` converted to
`result/b.mp4` by the always-succeeding encoder is archived as
`processed/b.avi`. -/
theorem convert_success_iff_archived_w :
    suffix "b.avi" ≠ ".mp4" ∧ suffix "result/b.mp4" = ".mp4"
    ∧ "b.avi".toList.head? ≠ some '/'
    ∧ (convert_file_to_mp4 encOk [("b.avi", 1000)] "b.avi" (some "result/b.mp4") =
         .ok (setEntry (removeEntry (setEntry [("b.avi", 1000)] "result/b.mp4" 512) "b.avi")
              (pathJoin CONVERTED_VIDEOS_FOLDER "b.avi")
              (getsize (setEntry [("b.avi", 1000)] "result/b.mp4" 512) "b.avi"))
       ∧ pathJoin CONVERTED_VIDEOS_FOLDER "b.avi" = "processed/" ++ "b.avi") :=
  ⟨by decide, by decide, by decide,
    (convert_success_iff_archived encOk [("b.avi", 1000)] "b.avi" "result/b.mp4"
        (by decide) (by decide) (by decide)).1
      (setEntry [("b.avi", 1000)] "result/b.mp4" 512) rfl⟩

/-- C2: `convert` checks its preconditions before any encoder call, in
this order: `FileNotFoundError` iff the source is missing; otherwise
`FileEvenExistsError` iff the destination exists and `force` is false;
otherwise `WrongExtensionError` iff either path lacks a supported video
extension; otherwise the result is exactly the encoder's outcome. -/
theorem convert_precondition_order (enc : Enc) (fs : Fs) (from_ to_ : String) (force : Bool) :
    (convert enc fs from_ to_ force = .error .fileNotFound ↔ pathExists fs from_ = false)
    ∧ (pathExists fs from_ = true →
        (convert enc fs from_ to_ force = .error .fileEvenExists ↔
          pathExists fs to_ = true ∧ force = false))
    ∧ (pathExists fs from_ = true → ¬(pathExists fs to_ = true ∧ force = false) →
        (convert enc fs from_ to_ force = .error .wrongExtension ↔
          ¬(is_video from_ = true ∧ is_video to_ = true)))
    ∧ (pathExists fs from_ = true → ¬(pathExists fs to_ = true ∧ force = false) →
        is_video from_ = true → is_video to_ = true →
        convert enc fs from_ to_ force =
          (match enc from_ to_ with
           | none => Except.error ConvErr.encoderFailure
           | some sz => Except.ok (setEntry fs to_ sz))) := by
  unfold convert
  split_ifs with h1 h2 h3
  · refine ⟨by simp [h1], ?_, ?_, ?_⟩
    · intro h; rw [h] at h1; exact absurd h1 (by simp)
    · intro h _; rw [h] at h1; exact absurd h1 (by simp)
    · intro h _ _ _; rw [h] at h1; exact absurd h1 (by simp)
  · refine ⟨by simp [h1], fun _ => by simp [h2], ?_, ?_⟩
    · intro _ hn; exact absurd h2 hn
    · intro _ hn _ _; exact absurd h2 hn
  · refine ⟨?_, fun _ => ?_, fun _ _ => ?_, fun _ _ _ _ => rfl⟩
    · cases henc : enc from_ to_ <;> simp [h1]
    · cases henc : enc from_ to_ <;> simp [h2]
    · cases henc : enc from_ to_ <;> simp [h3]
  · refine ⟨by simp [h1], fun _ => by simp [h2], fun _ _ => by simp [h3], ?_⟩
    intro _ _ hv1 hv2; exact absurd ⟨hv1, hv2⟩ h3

/-- Witness for C2 at a concrete call where all preconditions hold: the
result is the encoder's outcome. -/
theorem convert_precondition_order_w :
    pathExists [("b.avi", 1000)] "b.avi" = true
    ∧ ¬(pathExists [("b.avi", 1000)] "result/b.mp4" = true ∧ false = false)
    ∧ is_video "b.avi" = true ∧ is_video "result/b.mp4" = true
    ∧ convert encOk [("b.avi", 1000)] "b.avi" "result/b.mp4" false =
        (match encOk "b.avi" "result/b.mp4" with
         | none => Except.error ConvErr.encoderFailure
         | some sz => Except.ok (setEntry [("b.avi", 1000)] "result/b.mp4" sz)) :=
  ⟨by decide, by decide, by decide, by decide,
   (convert_precondition_order encOk [("b.avi", 1000)] "b.avi" "result/b.mp4" false).2.2.2
     (by decide) (by decide) (by decide) (by decide)⟩

/-- C3: with a non-negative bound `m`, `files` yields the first
`min(m, validCount)` valid scanned entries as jobs — each pairing the
source with `dest / change_suffix_to_mp4(source)`, in scan order — and
with the sentinel `-1` it yields one job per valid entry. -/
theorem files_bounded_job_selection (fs : Fs) (listing : List String) (dest : String)
    (m max_size : ℤ) :
    (0 ≤ m →
      files fs listing dest m max_size =
        (((validate_videos fs listing max_size).filter (fun e => e.2)).take m.toNat).map
          (fun e => (e.1, pathJoin dest (change_suffix_to_mp4 e.1)))
      ∧ (files fs listing dest m max_size).length =
          min m.toNat ((validate_videos fs listing max_size).filter (fun e => e.2)).length)
    ∧ (m = -1 →
      files fs listing dest m max_size =
        ((validate_videos fs listing max_size).filter (fun e => e.2)).map
          (fun e => (e.1, pathJoin dest (change_suffix_to_mp4 e.1)))) := by
  constructor
  · intro hm
    have he := filesAux_count_nonneg dest m hm (validate_videos fs listing max_size) 0 le_rfl
    have hz : (m - 0).toNat = m.toNat := by omega
    rw [hz] at he
    have he' : files fs listing dest m max_size =
        (((validate_videos fs listing max_size).filter (fun e => e.2)).take m.toNat).map
          (fun e => (e.1, pathJoin dest (change_suffix_to_mp4 e.1))) := by
      rw [files]; exact he
    refine ⟨he', ?_⟩
    rw [he']
    simp [List.length_map, List.length_take]
  · intro hm
    subst hm
    have he := filesAux_count_neg_one dest (validate_videos fs listing max_size) 0
    rw [files]; exact he

/-- Witness for C3 at a concrete scan with bound `1`. -/
theorem files_bounded_job_selection_w :
    (0 : ℤ) ≤ 1
    ∧ (files [("a.mp4", 1000), ("b.avi", 2000)] ["a.mp4", "b.avi", "noext"] "result" 1 10 =
        (((validate_videos [("a.mp4", 1000), ("b.avi", 2000)] ["a.mp4", "b.avi", "noext"] 10).filter
            (fun e => e.2)).take (1 : ℤ).toNat).map
          (fun e => (e.1, pathJoin "result" (change_suffix_to_mp4 e.1)))
      ∧ (files [("a.mp4", 1000), ("b.avi", 2000)] ["a.mp4", "b.avi", "noext"] "result" 1 10).length =
          min (1 : ℤ).toNat
            ((validate_videos [("a.mp4", 1000), ("b.avi", 2000)] ["a.mp4", "b.avi", "noext"] 10).filter
              (fun e => e.2)).length) :=
  ⟨by decide,
   (files_bounded_job_selection [("a.mp4", 1000), ("b.avi", 2000)]
      ["a.mp4", "b.avi", "noext"] "result" 1 10).1 (by decide)⟩

/-- C4 (code divergence, evaluated): with `base_path = "videos"` whose
child `a.mp4` is 20 MiB (present in the filesystem as
`"videos/a.mp4"`), the working directory lacking any `a.mp4`, and
`max_size = 10`, `validate_videos` reports the entry as valid — it
classifies the bare name `Path("a.mp4")`, which resolves against the
working directory — while the classifier applied to the actual child of
`base_path` (`pathJoin "videos" "a.mp4"`) says invalid. -/
theorem validate_videos_checks_cwd_not_base :
    validate_videos [("videos/a.mp4", 20971520)] ["a.mp4"] 10 = [("a.mp4", true)]
    ∧ is_item_valid [("videos/a.mp4", 20971520)] (pathJoin "videos" "a.mp4") 10 = false := by
  have hpe : pathExists [("videos/a.mp4", 20971520)] "a.mp4" = false := by decide
  have hg : get_size [("videos/a.mp4", 20971520)] "a.mp4" 1 = -1 := by
    simp [get_size, hpe]
  have hv : is_video "a.mp4" = true := by decide
  have hb : is_item_valid [("videos/a.mp4", 20971520)] "a.mp4" 10 = true := by
    simp [is_item_valid, hv, hg]
    norm_num
  have hs : suffix "a.mp4" = ".mp4" := rfl
  have hne : (".mp4" : String) ≠ "" := by decide
  have hjoin : pathJoin "videos" "a.mp4" = "videos/a.mp4" := by decide
  constructor
  · simp [validate_videos, hs, hne, hb]
  · rw [hjoin]
    have hpe2 : pathExists [("videos/a.mp4", 20971520)] "videos/a.mp4" = true := by decide
    have hsz : getsize [("videos/a.mp4", 20971520)] "videos/a.mp4" = 20971520 := by decide
    have hv2 : is_video "videos/a.mp4" = true := by decide
    have hg2 : get_size [("videos/a.mp4", 20971520)] "videos/a.mp4" 1 = 20 := by
      simp only [get_size, hpe2, if_true, hsz, pyRound]
      have harg : ((20971520 : ℕ) : ℚ) / 1024 ^ 2 * 10 ^ 1 = ((200 : ℤ) : ℚ) := by norm_num
      rw [harg, halfEvenRound_intCast]
      norm_num
    simp [is_item_valid, hv2, hg2]
    norm_num

/-- C5: a path that does not exist at check time but carries a supported
video extension is classified valid for any `max_size ≥ -1`, because
`get_size` returns the sentinel `-1` and `-1 ≤ max_size` holds. -/
theorem vanished_file_is_valid (fs : Fs) (p : String) (m : ℤ)
    (h1 : pathExists fs p = false) (h2 : is_video p = true) (h3 : (-1 : ℤ) ≤ m) :
    is_item_valid fs p m = true ∧ get_size fs p 1 = -1 := by
  have hg : get_size fs p 1 = -1 := by simp [get_size, h1]
  have hm : ((-1 : ℚ) ≤ (m : ℚ)) := by exact_mod_cast h3
  refine ⟨?_, hg⟩
  simp [is_item_valid, h2, hg, hm]

/-- Witness for C5: a vanished `ghost.avi` is reported valid. -/
theorem vanished_file_is_valid_w :
    pathExists [] "ghost.avi" = false ∧ is_video "ghost.avi" = true ∧ (-1 : ℤ) ≤ 10
    ∧ (is_item_valid [] "ghost.avi" 10 = true ∧ get_size [] "ghost.avi" 1 = -1) :=
  ⟨by decide, by decide, by decide,
    vanished_file_is_valid [] "ghost.avi" 10 (by decide) (by decide) (by decide)⟩

/-- C6: a job whose source already has the `.mp4` extension is handled
by a single `os.rename` to the given destination, without invoking the
encoder (the result does not depend on the encoder oracle); when the
source exists the rename relocates it to the destination. -/
theorem mp4_source_direct_rename (enc enc' : Enc) (fs : Fs) (from_ t : String)
    (h : suffix from_ = ".mp4") :
    convert_file_to_mp4 enc fs from_ (some t) = osRename fs from_ t
    ∧ convert_file_to_mp4 enc fs from_ (some t) = convert_file_to_mp4 enc' fs from_ (some t)
    ∧ (pathExists fs from_ = true →
        convert_file_to_mp4 enc fs from_ (some t) =
          .ok (setEntry (removeEntry fs from_) t (getsize fs from_))) := by
  have e1 : convert_file_to_mp4 enc fs from_ (some t) = osRename fs from_ t := by
    simp [convert_file_to_mp4, h]
  have e2 : convert_file_to_mp4 enc' fs from_ (some t) = osRename fs from_ t := by
    simp [convert_file_to_mp4, h]
  refine ⟨e1, e1.trans e2.symm, fun hx => ?_⟩
  rw [e1]; simp [osRename, hx]

/-- Witness for C6: `a.mp4` is moved straight to `result/a.mp4`,
identically under the succeeding and the failing encoder. -/
theorem mp4_source_direct_rename_w :
    suffix "a.mp4" = ".mp4"
    ∧ (convert_file_to_mp4 encOk [("a.mp4", 9)] "a.mp4" (some "result/a.mp4") =
         osRename [("a.mp4", 9)] "a.mp4" "result/a.mp4"
       ∧ convert_file_to_mp4 encOk [("a.mp4", 9)] "a.mp4" (some "result/a.mp4") =
           convert_file_to_mp4 encFail [("a.mp4", 9)] "a.mp4" (some "result/a.mp4")
       ∧ (pathExists [("a.mp4", 9)] "a.mp4" = true →
           convert_file_to_mp4 encOk [("a.mp4", 9)] "a.mp4" (some "result/a.mp4") =
             .ok (setEntry (removeEntry [("a.mp4", 9)] "a.mp4") "result/a.mp4"
                  (getsize [("a.mp4", 9)] "a.mp4")))) :=
  ⟨rfl, mp4_source_direct_rename encOk encFail [("a.mp4", 9)] "a.mp4" "result/a.mp4" rfl⟩

/-- C7: `is_video` holds exactly when the path's suffix belongs to the
fixed nine-element extension set, and it depends only on the suffix
string (no content inspection). -/
theorem is_video_characterisation :
    (∀ p : String, is_video p = true ↔
        suffix p ∈ [".mp4", ".m4v", ".mkv", ".flv", ".webm", ".avi", ".wmv", ".mpg", ".mov"])
    ∧ ∀ p q : String, suffix p = suffix q → is_video p = is_video q := by
  constructor
  · intro p
    simp [is_video, VIDEO]
  · intro p q h
    simp [is_video, h]

/-- Witness for C7: two paths with the same suffix classify alike. -/
theorem is_video_characterisation_w :
    suffix "clip.webm" = suffix "films/clip.webm"
    ∧ is_video "clip.webm" = is_video "films/clip.webm" :=
  ⟨rfl, is_video_characterisation.2 "clip.webm" "films/clip.webm" rfl⟩

/-- C8: with the default `decimal_places = 1`, `get_size` of an existing
file is its byte size divided by 1048576 rounded to one decimal place,
and `-1` for a missing path. -/
theorem get_size_default_rounding (fs : Fs) (p : String) :
    (pathExists fs p = true → get_size fs p 1 = claimSizeMB (getsize fs p))
    ∧ (pathExists fs p = false → get_size fs p 1 = -1) := by
  constructor
  · intro h
    simp only [get_size, h, if_true]
    unfold pyRound claimSizeMB
    have h2 : ((getsize fs p : ℚ) / 1024 ^ 2 * 10 ^ 1) = ((getsize fs p : ℚ) * 10 / 1048576) := by
      norm_num; ring
    rw [h2]
    norm_num
  · intro h; simp [get_size, h]

/-- Witness for C8 at a concrete existing file. -/
theorem get_size_default_rounding_w :
    pathExists [("a.avi", 3407872)] "a.avi" = true
    ∧ get_size [("a.avi", 3407872)] "a.avi" 1 = claimSizeMB (getsize [("a.avi", 3407872)] "a.avi") :=
  ⟨by decide, (get_size_default_rounding [("a.avi", 3407872)] "a.avi").1 (by decide)⟩

/-- C9: the `.mp4`-source branch runs before the destination-suffix
validation and renames with no existence check and no force flag: an
existing destination (of any suffix) is silently overwritten with no
`FileEvenExistsError`, and a `None` destination makes the rename itself
fail (`TypeError`), which propagates. -/
theorem mp4_branch_bypasses_checks (enc : Enc) (fs : Fs) (from_ t : String)
    (h : suffix from_ = ".mp4") (hsrc : pathExists fs from_ = true) :
    (pathExists fs t = true →
      convert_file_to_mp4 enc fs from_ (some t) =
        .ok (setEntry (removeEntry fs from_) t (getsize fs from_)))
    ∧ convert_file_to_mp4 enc fs from_ none = .error .typeError := by
  constructor
  · intro _
    simp [convert_file_to_mp4, h, osRename, hsrc]
  · simp [convert_file_to_mp4, h]

/-- Witness for C9: `a.mp4` renamed onto the existing non-`.mp4` file
`d.txt` overwrites it; with no destination the call errors. -/
theorem mp4_branch_bypasses_checks_w :
    suffix "a.mp4" = ".mp4" ∧ pathExists [("a.mp4", 9), ("d.txt", 5)] "a.mp4" = true
    ∧ ((pathExists [("a.mp4", 9), ("d.txt", 5)] "d.txt" = true →
        convert_file_to_mp4 encOk [("a.mp4", 9), ("d.txt", 5)] "a.mp4" (some "d.txt") =
          .ok (setEntry (removeEntry [("a.mp4", 9), ("d.txt", 5)] "a.mp4") "d.txt"
               (getsize [("a.mp4", 9), ("d.txt", 5)] "a.mp4")))
      ∧ convert_file_to_mp4 encOk [("a.mp4", 9), ("d.txt", 5)] "a.mp4" none =
          .error .typeError) :=
  ⟨rfl, by decide,
    mp4_branch_bypasses_checks encOk [("a.mp4", 9), ("d.txt", 5)] "a.mp4" "d.txt"
      rfl (by decide)⟩

/-- C10: a non-`.mp4` source with a provided non-`.mp4` destination is
logged and dropped: the worker returns with the state unchanged, for
every encoder (so neither `convert` nor the encoder, nor any rename, has
any effect). -/
theorem wrong_dest_suffix_noop (enc : Enc) (fs : Fs) (from_ t : String)
    (h1 : suffix from_ ≠ ".mp4") (h2 : suffix t ≠ ".mp4") :
    convert_file_to_mp4 enc fs from_ (some t) = .ok fs := by
  simp [convert_file_to_mp4, h1, h2]

/-- Witness for C10: `b.avi` with destination `d.txt` leaves the
filesystem untouched. -/
theorem wrong_dest_suffix_noop_w :
    suffix "b.avi" ≠ ".mp4" ∧ suffix "d.txt" ≠ ".mp4"
    ∧ convert_file_to_mp4 encOk [("b.avi", 1000)] "b.avi" (some "d.txt") =
        .ok [("b.avi", 1000)] :=
  ⟨by decide, by decide,
    wrong_dest_suffix_noop encOk [("b.avi", 1000)] "b.avi" "d.txt" (by decide) (by decide)⟩

end VConverter
